import Mathlib

/-!
Verification of the live-trading core (apps/base_strategy.py, src/bot.py,
src/gamma_client.py) against its natural-language specification.

Prices, sizes and clock readings are embedded as rationals; Python dicts
keyed by side become association lists or `String → Option _` functions;
fallible calls become `Except` values; the asyncio task handle becomes an
explicit `Option` field.  Components that live in lib/ (position manager,
market manager) are absent from the source tree; where a claim needs them
they are modelled from the spec and marked as such in their doc comments.
-/

/-- Order-placement request: the arguments of `TradingBot.place_order`
as issued by `BaseStrategy.execute_buy` / `execute_sell`. -/
structure OrderRequest where
  token_id : String
  price : ℚ
  size : ℚ
  side : String
deriving DecidableEq, Repr

/-- Result of an order placement, mirroring the `OrderResult` dataclass of
src/bot.py (the `data` payload is dropped; it is never read by the core). -/
structure OrderResult where
  success : Bool
  order_id : Option String
  status : Option String
  message : String
deriving DecidableEq, Repr

/-- Python truthiness of `token_ids.get(side)`: `if not token_id:` in
`BaseStrategy.execute_buy` is taken both when the key is absent (`None`)
and when it maps to the empty string. -/
def pyFalsyStr : Option String → Bool
  | none => true
  | some s => s = ""

/-- The `positions.open_position(...)` call arguments recorded by
`execute_buy` on a successful placement. -/
structure OpenPositionCall where
  side : String
  token_id : String
  entry_price : ℚ
  size : ℚ
  order_id : Option String
deriving DecidableEq, Repr

/-- Observable outcome of one `execute_buy` call: the returned boolean, the
orders submitted to the execution collaborator, and the positions opened. -/
structure BuyOutcome where
  returned : Bool
  submitted : List OrderRequest
  opened : List OpenPositionCall
deriving DecidableEq, Repr

/-- Shallow embedding of `BaseStrategy.execute_buy` (apps/base_strategy.py).
`tokenIds` is the `self.token_ids` mapping, `cfgSize` is `self.config.size`,
and `place` is the execution collaborator's deterministic response to a
placement request. -/
def execute_buy (tokenIds : String → Option String) (cfgSize : ℚ)
    (place : OrderRequest → OrderResult) (side : String) (current_price : ℚ) :
    BuyOutcome :=
  if pyFalsyStr (tokenIds side) then
    { returned := false, submitted := [], opened := [] }
  else
    match tokenIds side with
    | none => { returned := false, submitted := [], opened := [] }
    | some tid =>
      let size := cfgSize / current_price
      let buy_price := min (current_price + 2/100) (99/100 : ℚ)
      let req : OrderRequest :=
        { token_id := tid, price := buy_price, size := size, side := "BUY" }
      let result := place req
      if result.success then
        { returned := true, submitted := [req],
          opened := [{ side := side, token_id := tid,
                       entry_price := current_price, size := size,
                       order_id := result.order_id }] }
      else
        { returned := false, submitted := [req], opened := [] }

/-- Shallow embedding of `BaseStrategy._get_current_prices`
(apps/base_strategy.py): iterate sides "up", "down"; include a side in the
mapping exactly when `self.market.get_mid_price(side)` is positive. -/
def get_current_prices (mid : String → ℚ) : List (String × ℚ) :=
  ["up", "down"].filterMap
    (fun side => if 0 < mid side then some (side, mid side) else none)

/-- Lookup in the association-list embedding of the Python price dict. -/
def lookupSide (prices : List (String × ℚ)) (side : String) : Option ℚ :=
  (prices.find? (fun pr => pr.1 = side)).map (fun pr => pr.2)

/-- Status of a position.  Modelled from the spec: the `Position` dataclass
lives in lib/position_manager.py, which is not in the source tree; spec §3
gives status ∈ \x7bopen, closed\x7d. -/
inductive PosStatus
  | opened
  | closed
deriving DecidableEq, Repr

/-- Modelled from the spec: the `Position` dataclass of
lib/position_manager.py (absent from the source tree); fields per spec §3. -/
structure Position where
  id : ℕ
  side : String
  token_id : String
  entry_price : ℚ
  size : ℚ
  order_id : Option String
  status : PosStatus
  realized_pnl : Option ℚ
deriving DecidableEq, Repr

/-- Modelled from the spec: `Position.get_pnl` of lib/position_manager.py
(absent from the source tree); spec §4.5:
pnl = (current_price − entry_price) × size. -/
def Position.get_pnl (pos : Position) (current_price : ℚ) : ℚ :=
  (current_price - pos.entry_price) * pos.size

/-- Session statistics, per spec §3 (`SessionStats`). -/
structure SessionStats where
  trades_closed : ℕ
  total_pnl : ℚ
  wins : ℕ
  losses : ℕ
deriving DecidableEq, Repr

/-- State owned by the position manager: the position list and the session
stats. -/
structure PMState where
  positions : List Position
  stats : SessionStats
deriving DecidableEq, Repr

/-- Modelled from the spec: `PositionManager.close_position` of
lib/position_manager.py (absent from the source tree); spec §4.5: marks the
position closed with the realized PnL and updates SessionStats
(trades_closed+1, total_pnl += pnl, wins or losses +1 by sign). -/
def close_position (st : PMState) (pid : ℕ) (realized : ℚ) : PMState :=
  { positions := st.positions.map (fun p =>
      if p.id = pid then
        { p with status := PosStatus.closed, realized_pnl := some realized }
      else p),
    stats :=
      { trades_closed := st.stats.trades_closed + 1,
        total_pnl := st.stats.total_pnl + realized,
        wins := if 0 < realized then st.stats.wins + 1 else st.stats.wins,
        losses := if 0 < realized then st.stats.losses else st.stats.losses + 1 } }

/-- Observable outcome of one `execute_sell` call: the returned boolean, the
orders submitted, and the position-manager state after the call. -/
structure SellOutcome where
  returned : Bool
  submitted : List OrderRequest
  state : PMState
deriving DecidableEq, Repr

/-- Shallow embedding of `BaseStrategy.execute_sell` (apps/base_strategy.py):
price the limit at max(current_price − 0.02, 0.01), submit a SELL for the
position's token and size; close the position on success, leave the state
untouched on failure. -/
def execute_sell (place : OrderRequest → OrderResult) (st : PMState)
    (pos : Position) (current_price : ℚ) : SellOutcome :=
  let sell_price := max (current_price - 2/100) (1/100 : ℚ)
  let pnl := pos.get_pnl current_price
  let req : OrderRequest :=
    { token_id := pos.token_id, price := sell_price, size := pos.size,
      side := "SELL" }
  let result := place req
  if result.success then
    { returned := true, submitted := [req],
      state := close_position st pos.id pnl }
  else
    { returned := false, submitted := [req], state := st }

/-- The fields of the CLOB order-placement response that
`OrderResult.from_response` (src/bot.py) reads; each is optional because the
Python code reads them with `dict.get`. -/
structure ClobResponse where
  success : Option Bool
  errorMsg : Option String
  orderId : Option String
  status : Option String
deriving DecidableEq, Repr

/-- Shallow embedding of `OrderResult.from_response` (src/bot.py):
success defaults to false when absent, order id and status are copied
verbatim, and the message is the error message unless the order succeeded. -/
def OrderResult.from_response (r : ClobResponse) : OrderResult :=
  let success := r.success.getD false
  let error_msg := r.errorMsg.getD ""
  { success := success,
    order_id := r.orderId,
    status := r.status,
    message := if success then "Order placed successfully" else error_msg }

/-- Shallow embedding of `TradingBot.place_order` (src/bot.py) for a bot
whose signer is configured.  `submit` is the combined outcome of order
construction, signing and submission inside the try block: either an
exception (its message) or the completed response.  The except-branch
mirrors `OrderResult(success=False, message=str(e))`. -/
def place_order (submit : Except String ClobResponse) : OrderResult :=
  match submit with
  | Except.error e =>
    { success := false, order_id := none, status := none, message := e }
  | Except.ok resp => OrderResult.from_response resp

/-- Shallow embedding of `TradingBot.get_open_orders` (src/bot.py): return
the fetched records, or the empty list when the underlying fetch raised. -/
def get_open_orders {α : Type} (fetch : Except String (List α)) : List α :=
  match fetch with
  | Except.error _ => []
  | Except.ok l => l

/-- Exit kinds produced by exit evaluation. -/
inductive ExitKind
  | take_profit
  | stop_loss
deriving DecidableEq, Repr

/-- Modelled from the spec: `PositionManager.check_all_exits` of
lib/position_manager.py (absent from the source tree); spec §4.5: for every
open position with a known current price, pnl = (current − entry) × size;
take-profit is checked first (pnl/(entry×size) ≥ take_profit fraction), then
stop-loss (pnl ≤ −stop_loss × entry × size); at most one exit per position
per call, in insertion order. -/
def check_all_exits (tp sl : ℚ) (positions : List Position)
    (prices : List (String × ℚ)) : List (Position × ExitKind × ℚ) :=
  positions.filterMap (fun pos =>
    if pos.status = PosStatus.opened then
      match lookupSide prices pos.side with
      | some p =>
        let pnl := (p - pos.entry_price) * pos.size
        if tp ≤ pnl / (pos.entry_price * pos.size) then
          some (pos, ExitKind.take_profit, pnl)
        else if pnl ≤ -(sl * pos.entry_price * pos.size) then
          some (pos, ExitKind.stop_loss, pnl)
        else none
      | none => none
    else none)

/-- Observable steps of one iteration of the `BaseStrategy.run` while-loop
(apps/base_strategy.py). -/
inductive TickEvent
  | readPrices (prices : List (String × ℚ))
  | onTickHook (prices : List (String × ℚ))
  | sellAttempt (pos : Position) (price : ℚ)
  | refreshCheck
  | renderStatus (prices : List (String × ℚ))
  | sleepFor (dt : ℚ)
deriving DecidableEq, Repr

/-- Shallow embedding of the body of the `while self.running` loop of
`BaseStrategy.run` together with `_check_exits` (apps/base_strategy.py):
build the price mapping, call the per-tick hook, evaluate exits and sell
each triggered position at `prices.get(position.side, 0)`, run the debounced
refresh check, render status, then sleep for `update_interval`. -/
def loop_tick (tp sl update_interval : ℚ) (mid : String → ℚ)
    (positions : List Position) : List TickEvent :=
  let prices := get_current_prices mid
  let exits := check_all_exits tp sl positions prices
  TickEvent.readPrices prices :: TickEvent.onTickHook prices ::
    (exits.map (fun e =>
        TickEvent.sellAttempt e.1 ((lookupSide prices e.1.side).getD 0)))
    ++ [TickEvent.refreshCheck, TickEvent.renderStatus prices,
        TickEvent.sleepFor update_interval]

/-- The only field of a Gamma market record that
`GammaClient.get_current_15m_market` (src/gamma_client.py) inspects:
`market.get("acceptingOrders")` (Python-falsy market responses are folded
into the absent case of the lookup). -/
structure GammaMarket where
  acceptingOrders : Bool
deriving DecidableEq, Repr

/-- Start timestamp (epoch seconds) of the present 15-minute window, as
computed by `now.replace(minute=(now.minute // 15) * 15, second=0,
microsecond=0)` in src/gamma_client.py: keep the hour, floor the minute to a
multiple of 15, zero the seconds. -/
def windowStart (now : ℕ) : ℕ :=
  let minute := now % 3600 / 60
  let floored := minute / 15 * 15
  3600 * (now / 3600) + 60 * floored

/-- Slug for a window timestamp: f-string `prefix-timestamp` of
src/gamma_client.py. -/
def slugFor (pfx : String) (t : ℤ) : String :=
  pfx ++ "-" ++ toString t

/-- One probe of `get_current_15m_market`: fetch the slug, and keep the
market only when it is present and accepting orders (`if market and
market.get("acceptingOrders")`). -/
def acceptingProbe (lookup : String → Option GammaMarket) (slug : String) :
    Option GammaMarket :=
  match lookup slug with
  | some m => if m.acceptingOrders then some m else none
  | none => none

/-- Shallow embedding of `GammaClient.get_current_15m_market`
(src/gamma_client.py) after the supported-coin check: probe the current
window's slug, then the next window (+900 s), then the previous window
(−900 s), returning the first market that is accepting orders.  `lookup` is
the REST lookup `get_market_by_slug`; `pfx` is the coin's slug prefix. -/
def get_current_15m_market (lookup : String → Option GammaMarket)
    (pfx : String) (now : ℕ) : Option GammaMarket :=
  let current_ts : ℤ := (windowStart now : ℤ)
  match acceptingProbe lookup (slugFor pfx current_ts) with
  | some m => some m
  | none =>
    match acceptingProbe lookup (slugFor pfx (current_ts + 900)) with
    | some m => some m
    | none => acceptingProbe lookup (slugFor pfx (current_ts - 900))

/-- The probe order stated by the spec: the present window's start
timestamp, that timestamp plus 900 seconds, then minus 900 seconds. -/
def probeSlugs (pfx : String) (now : ℕ) : List String :=
  let ts : ℤ := (windowStart now : ℤ)
  [slugFor pfx ts, slugFor pfx (ts + 900), slugFor pfx (ts - 900)]

/-- Spec-side reference for claim C7, written from the spec's words: the
first accepting-orders match over the probed slugs, absent otherwise. -/
def firstAcceptingMarket (lookup : String → Option GammaMarket) :
    List String → Option GammaMarket
  | [] => none
  | s :: rest =>
    match lookup s with
    | some m =>
      if m.acceptingOrders then some m else firstAcceptingMarket lookup rest
    | none => firstAcceptingMarket lookup rest

/-- State behind the debounced order refresh of apps/base_strategy.py:
`_last_order_refresh` (a `time.time()` reading, initially 0), the completion
flag of every refresh task ever created (in creation order, `true` = the
task is done), and `_order_refresh_task` as the index of the task the handle
points to (`none` when the handle is `None`). -/
structure RefreshState where
  last_order_refresh : ℚ
  tasks : List Bool
  handle : Option ℕ
deriving DecidableEq, Repr

/-- Initial refresh state of `BaseStrategy.__init__`: no tasks, handle
`None`, last refresh time 0. -/
def initRefreshState : RefreshState :=
  { last_order_refresh := 0, tasks := [], handle := none }

/-- Shallow embedding of `BaseStrategy._maybe_refresh_orders`
(apps/base_strategy.py): when more than `order_refresh_interval` has elapsed
since `_last_order_refresh`, and the handle does not point to a not-yet-done
task, record the attempt time and create a new refresh task; the boolean
reports whether a task was created. -/
def maybe_refresh (interval : ℚ) (st : RefreshState) (now : ℚ) :
    RefreshState × Bool :=
  if interval < now - st.last_order_refresh then
    match st.handle with
    | some i =>
      if st.tasks.getD i true = false then (st, false)
      else
        ({ last_order_refresh := now, tasks := st.tasks ++ [false],
           handle := some st.tasks.length }, true)
    | none =>
      ({ last_order_refresh := now, tasks := st.tasks ++ [false],
         handle := some st.tasks.length }, true)
  else (st, false)

/-- Settlement of the in-flight refresh task: the `finally` of
`_do_order_refresh` clears `_order_refresh_task`, and the task is done from
then on. -/
def completeTask (st : RefreshState) : RefreshState :=
  match st.handle with
  | some i => { st with tasks := st.tasks.set i true, handle := none }
  | none => st

/-- Events that drive the refresh state between two points of the strategy
loop: a call of the refresh trigger at some clock reading, or settlement of
the in-flight task. -/
inductive RefreshEvent
  | trigger (now : ℚ)
  | complete
deriving DecidableEq, Repr

/-- One step of the refresh state machine. -/
def refreshStep (interval : ℚ) (st : RefreshState) :
    RefreshEvent → RefreshState
  | RefreshEvent.trigger now => (maybe_refresh interval st now).1
  | RefreshEvent.complete => completeTask st

/-- Refresh state after a sequence of trigger/settlement events starting
from the initial state. -/
def runRefreshTrace (interval : ℚ) (events : List RefreshEvent) :
    RefreshState :=
  events.foldl (refreshStep interval) initRefreshState

/-- At most one refresh task has not yet completed: any two indices of
not-done tasks coincide (out-of-range reads default to done). -/
def AtMostOneOutstanding (st : RefreshState) : Prop :=
  ∀ i j : ℕ, st.tasks.getD i true = false → st.tasks.getD j true = false →
    i = j

/-- No refresh task is outstanding: every task ever created is done. -/
def NoOutstanding (st : RefreshState) : Prop :=
  ∀ j : ℕ, st.tasks.getD j true = true

/-- Invariant of reachable refresh states: the handle is in range, and every
not-yet-done task is exactly the one the handle points to. -/
def RefreshInv (st : RefreshState) : Prop :=
  (∀ i : ℕ, st.handle = some i → i < st.tasks.length) ∧
  (∀ j : ℕ, st.tasks.getD j true = false → st.handle = some j)

/-- Modelled from the spec: `win_rate` of the stats snapshot produced by
`PositionManager.get_stats` (lib/position_manager.py, absent from the source
tree); spec §3: wins/trades_closed×100, 0 when trades_closed = 0. -/
def win_rate (stats : SessionStats) : ℚ :=
  if stats.trades_closed = 0 then 0
  else (stats.wins : ℚ) / (stats.trades_closed : ℚ) * 100

/-- The three figures `_print_summary` (apps/base_strategy.py) reports from
the stats snapshot. -/
structure SummaryLine where
  trades_closed : ℕ
  total_pnl : ℚ
  winRate : ℚ
deriving DecidableEq, Repr

/-- The session summary produced by `_print_summary` for a given stats
snapshot. -/
def summaryOf (stats : SessionStats) : SummaryLine :=
  { trades_closed := stats.trades_closed, total_pnl := stats.total_pnl,
    winRate := win_rate stats }

/-- Observable events of one execution of `BaseStrategy.run`: a step of the
try-block body (start attempt, loop iterations, hook calls — identified by
an opaque index), the `stop()` call, and the session-summary report. -/
inductive RunEvent
  | bodyStep (n : ℕ)
  | stopCall
  | summaryReport (s : SummaryLine)
deriving DecidableEq, Repr

/-- How the try-block body of `run()` terminates: it finishes (the loop
exited because `running` became false, or `start()` returned false and the
body returned early), it is interrupted by the user (KeyboardInterrupt), or
it raises some other exception. -/
inductive PyTermination
  | finished
  | kbInterrupt
  | raised (msg : String)
deriving DecidableEq, Repr

/-- Event-trace semantics of Python
`try: body  except KeyboardInterrupt: handler  finally: finalizer`:
the handler runs only on KeyboardInterrupt (which it absorbs), the finalizer
runs on every path, and any other exception propagates after the finalizer.
The second component is the exception propagated to the caller. -/
def tryExceptKbFinally (bodyEvents : List RunEvent) (term : PyTermination)
    (handlerEvents finalizerEvents : List RunEvent) :
    List RunEvent × Option String :=
  match term with
  | PyTermination.finished => (bodyEvents ++ finalizerEvents, none)
  | PyTermination.kbInterrupt =>
    (bodyEvents ++ handlerEvents ++ finalizerEvents, none)
  | PyTermination.raised m => (bodyEvents ++ finalizerEvents, some m)

/-- Shallow embedding of `BaseStrategy.run` (apps/base_strategy.py) at the
event-trace level: the whole body (start attempt and loop) runs inside
`try ... except KeyboardInterrupt ... finally`, the interrupt handler only
logs, and the finally block runs `stop()` then `_print_summary()`.
`bodySteps` abstracts the observable steps the body performed before
terminating as `term`; `stats` is the position manager's session stats at
shutdown. -/
def run (stats : SessionStats) (bodySteps : List ℕ) (term : PyTermination) :
    List RunEvent × Option String :=
  tryExceptKbFinally (bodySteps.map RunEvent.bodyStep) term []
    [RunEvent.stopCall, RunEvent.summaryReport (summaryOf stats)]

/-- Cooperative cancellation signal (asyncio.CancelledError). -/
inductive CancellationSignal
  | cancelled
deriving DecidableEq, Repr

/-- The strategy state that `BaseStrategy.stop` touches: the `running` flag
and the refresh-task handle (`none` when `_order_refresh_task is None`; the
payload is the task's done flag). -/
structure StratState where
  running : Bool
  task : Option Bool
deriving DecidableEq, Repr

/-- Observable steps of one `stop()` call. -/
inductive StopEvent
  | cancelTask
  | awaitTask
  | marketStop
deriving DecidableEq, Repr

/-- Shallow embedding of `BaseStrategy.stop` (apps/base_strategy.py): set
`running` to false; when a refresh task handle is present, cancel the task,
await its settlement absorbing `CancelledError`, and clear the handle; then
stop the market controller.  `settle` is the outcome of awaiting the
cancelled task (normal return or the cancellation signal) — both branches
are absorbed by the `except asyncio.CancelledError: pass`.  The market
controller's own `stop` is modelled from the spec as non-raising
(lib/market_manager.py is absent from the source tree; spec §4.3: safe to
call multiple times).  The last component is the exception propagated to
the caller of `stop`. -/
def stop (st : StratState) (settle : Except CancellationSignal Unit) :
    StratState × List StopEvent × Option CancellationSignal :=
  match st.task with
  | some _ =>
    let absorbed : Option CancellationSignal :=
      match settle with
      | Except.ok _ => none
      | Except.error _ => none
    ({ running := false, task := none },
     [StopEvent.cancelTask, StopEvent.awaitTask, StopEvent.marketStop],
     absorbed)
  | none =>
    ({ running := false, task := none }, [StopEvent.marketStop], none)

/-- The strategy state that the background refresh touches: the cached
open-orders list and the task handle. -/
structure RefreshCtx (α : Type) where
  cached : List α
  handle : Option Bool
deriving DecidableEq, Repr

/-- Shallow embedding of `BaseStrategy._refresh_orders_sync`
(apps/base_strategy.py): run `bot.get_open_orders` on a private event loop;
any exception in that machinery yields the empty list (`machineFail` is the
message of such an exception when one occurs); `fetch` is the outcome of the
underlying CLOB fetch inside `get_open_orders`. -/
def refresh_orders_sync {α : Type} (machineFail : Option String)
    (fetch : Except String (List α)) : List α :=
  match machineFail with
  | some _ => []
  | none => get_open_orders fetch

/-- Shallow embedding of `BaseStrategy._do_order_refresh`
(apps/base_strategy.py): replace the cached list with the refresh result,
swallow ordinary exceptions, and clear the task handle in the `finally` on
every path.  `interrupted` models the task being cancelled mid-await
(CancelledError is not an `Exception`, so it propagates — after the
`finally` has cleared the handle).  The second component is the exception
leaving the task. -/
def do_order_refresh {α : Type} (ctx : RefreshCtx α) (interrupted : Bool)
    (machineFail : Option String) (fetch : Except String (List α)) :
    RefreshCtx α × Option CancellationSignal :=
  if interrupted then
    ({ ctx with handle := none }, some CancellationSignal.cancelled)
  else
    ({ cached := refresh_orders_sync machineFail fetch, handle := none },
     none)

/-- Recognizer for the summary event of a `run` trace. -/
def isSummary : RunEvent → Bool
  | RunEvent.summaryReport _ => true
  | _ => false

/-- Recognizer for the `stop()` event of a `run` trace. -/
def isStop : RunEvent → Bool
  | RunEvent.stopCall => true
  | _ => false

/-!  Theorems.  Helper lemmas first, then one theorem per claim (with the
witness or counterexample it requires). -/

theorem getD_append_left_bool (l : List Bool) (b : Bool) (j : ℕ)
    (h : j < l.length) : (l ++ [b]).getD j true = l.getD j true := by
  simp [List.getD_eq_getElem?_getD, List.getElem?_append_left h]

theorem getD_append_len_bool (l : List Bool) (b : Bool) :
    (l ++ [b]).getD l.length true = b := by
  simp [List.getD_eq_getElem?_getD,
    List.getElem?_append_right (Nat.le_refl _)]

theorem getD_append_gt_bool (l : List Bool) (b : Bool) (j : ℕ)
    (h : l.length < j) : (l ++ [b]).getD j true = true := by
  rw [List.getD_eq_getElem?_getD,
    List.getElem?_append_right (Nat.le_of_lt h),
    List.getElem?_eq_none (by simp; omega)]
  rfl

theorem getD_set_self_bool (l : List Bool) (i : ℕ) (h : i < l.length) :
    (l.set i true).getD i true = true := by
  simp [List.getD_eq_getElem?_getD, List.getElem?_set_self h]

theorem getD_set_ne_bool (l : List Bool) (i j : ℕ) (h : i ≠ j) :
    (l.set i true).getD j true = l.getD j true := by
  simp [List.getD_eq_getElem?_getD, List.getElem?_set_ne h]

theorem refreshInv_init : RefreshInv initRefreshState := by
  constructor
  · intro i hi
    simp [initRefreshState] at hi
  · intro j hj
    simp [initRefreshState, List.getD] at hj

theorem noOutstanding_of_handle_none (st : RefreshState) (h : RefreshInv st)
    (hh : st.handle = none) : NoOutstanding st := by
  intro j
  cases hb : st.tasks.getD j true with
  | true => rfl
  | false =>
    have := h.2 j hb
    rw [hh] at this
    cases this

theorem noOutstanding_of_handle_done (st : RefreshState) (h : RefreshInv st)
    (i : ℕ) (hh : st.handle = some i) (hd : st.tasks.getD i true = true) :
    NoOutstanding st := by
  intro j
  cases hb : st.tasks.getD j true with
  | true => rfl
  | false =>
    have hj := h.2 j hb
    rw [hh] at hj
    injection hj with hij
    rw [hij] at hd
    rw [hd] at hb
    cases hb

theorem refreshInv_create (st : RefreshState) (now : ℚ)
    (hno : NoOutstanding st) :
    RefreshInv { last_order_refresh := now, tasks := st.tasks ++ [false],
                 handle := some st.tasks.length } := by
  constructor
  · intro i hi
    injection hi with hi
    subst hi
    simp
  · intro j hj
    simp only at hj
    rcases lt_trichotomy j st.tasks.length with hlt | heq | hgt
    · rw [getD_append_left_bool _ _ _ hlt, hno j] at hj
      cases hj
    · rw [heq]
    · rw [getD_append_gt_bool _ _ _ hgt] at hj
      cases hj

theorem refreshInv_maybe (interval : ℚ) (st : RefreshState) (now : ℚ)
    (h : RefreshInv st) : RefreshInv (maybe_refresh interval st now).1 := by
  unfold maybe_refresh
  split
  · cases hh : st.handle with
    | some i =>
      simp only
      split
      · exact h
      · rename_i hd
        have hd2 : st.tasks.getD i true = true := by
          cases hb : st.tasks.getD i true with
          | true => rfl
          | false => exact absurd hb hd
        exact refreshInv_create st now
          (noOutstanding_of_handle_done st h i hh hd2)
    | none =>
      simp only
      exact refreshInv_create st now (noOutstanding_of_handle_none st h hh)
  · exact h

theorem refreshInv_complete (st : RefreshState) (h : RefreshInv st) :
    RefreshInv (completeTask st) := by
  unfold completeTask
  cases hh : st.handle with
  | none => exact h
  | some i =>
    constructor
    · intro k hk
      cases hk
    · intro j hj
      simp only at hj
      by_cases hij : i = j
      · rw [← hij, getD_set_self_bool _ _ (h.1 i hh)] at hj
        cases hj
      · rw [getD_set_ne_bool _ _ _ hij] at hj
        have hj2 := h.2 j hj
        rw [hh] at hj2
        injection hj2 with hij2
        exact absurd hij2 hij

theorem refreshInv_step (interval : ℚ) (st : RefreshState)
    (ev : RefreshEvent) (h : RefreshInv st) :
    RefreshInv (refreshStep interval st ev) := by
  cases ev with
  | trigger now => exact refreshInv_maybe interval st now h
  | complete => exact refreshInv_complete st h

theorem refreshInv_foldl (interval : ℚ) (l : List RefreshEvent) :
    ∀ st : RefreshState, RefreshInv st →
      RefreshInv (l.foldl (refreshStep interval) st) := by
  induction l with
  | nil => intro st h; exact h
  | cons ev rest ih =>
    intro st h
    exact ih (refreshStep interval st ev) (refreshInv_step interval st ev h)

theorem refreshInv_trace (interval : ℚ) (events : List RefreshEvent) :
    RefreshInv (runRefreshTrace interval events) :=
  refreshInv_foldl interval events initRefreshState refreshInv_init

theorem atMostOne_of_inv (st : RefreshState) (h : RefreshInv st) :
    AtMostOneOutstanding st := by
  intro i j hi hj
  have h1 := h.2 i hi
  have h2 := h.2 j hj
  rw [h1] at h2
  injection h2

theorem created_shape (interval : ℚ) (st : RefreshState) (now : ℚ)
    (hc : (maybe_refresh interval st now).2 = true) :
    (maybe_refresh interval st now).1
      = { last_order_refresh := now, tasks := st.tasks ++ [false],
          handle := some st.tasks.length }
    ∧ interval < now - st.last_order_refresh := by
  unfold maybe_refresh at hc ⊢
  by_cases htime : interval < now - st.last_order_refresh
  · simp only [if_pos htime] at hc ⊢
    cases hh : st.handle with
    | some i =>
      simp only [hh] at hc ⊢
      by_cases hd : st.tasks.getD i true = false
      · rw [if_pos hd] at hc
        exact Bool.noConfusion hc
      · rw [if_neg hd] at hc ⊢
        exact ⟨rfl, htime⟩
    | none =>
      simp only [hh] at hc ⊢
      exact ⟨trivial, htime⟩
  · rw [if_neg htime] at hc
    exact Bool.noConfusion hc

theorem created_noOutstanding (interval : ℚ) (st : RefreshState) (now : ℚ)
    (h : RefreshInv st) (hc : (maybe_refresh interval st now).2 = true) :
    NoOutstanding st := by
  unfold maybe_refresh at hc
  by_cases htime : interval < now - st.last_order_refresh
  · simp only [if_pos htime] at hc
    cases hh : st.handle with
    | some i =>
      simp only [hh] at hc
      by_cases hd : st.tasks.getD i true = false
      · rw [if_pos hd] at hc
        exact Bool.noConfusion hc
      · have hd2 : st.tasks.getD i true = true := by
          cases hb : st.tasks.getD i true with
          | true => rfl
          | false => exact absurd hb hd
        exact noOutstanding_of_handle_done st h i hh hd2
    | none => exact noOutstanding_of_handle_none st h hh
  · rw [if_neg htime] at hc
    exact Bool.noConfusion hc

theorem no_second_create (interval : ℚ) (st : RefreshState) (now1 now2 : ℚ)
    (h1 : (maybe_refresh interval st now1).2 = true)
    (hle : now2 - now1 ≤ interval) :
    (maybe_refresh interval (maybe_refresh interval st now1).1 now2).2
      = false := by
  have hshape := (created_shape interval st now1 h1).1
  rw [hshape]
  unfold maybe_refresh
  rw [if_neg (by simp only; linarith)]

/-- Claim C2: at every point of a run at most one background order-refresh
task exists that has not yet completed; the trigger creates a task only if
at least `order_refresh_interval` has elapsed since the last scheduled
attempt and no previously created task is outstanding; and two trigger
calls within the interval while the first refresh is outstanding schedule
only one task (the second trigger creates none). -/
theorem C2_at_most_one_refresh (interval : ℚ) (events : List RefreshEvent)
    (now1 now2 : ℚ) :
    AtMostOneOutstanding (runRefreshTrace interval events) ∧
    ((maybe_refresh interval (runRefreshTrace interval events) now1).2 = true →
       interval ≤ now1 - (runRefreshTrace interval events).last_order_refresh
       ∧ NoOutstanding (runRefreshTrace interval events)) ∧
    ((maybe_refresh interval (runRefreshTrace interval events) now1).2 = true →
       now2 - now1 ≤ interval →
       (maybe_refresh interval
          (maybe_refresh interval (runRefreshTrace interval events) now1).1
          now2).2 = false) := by
  have hinv := refreshInv_trace interval events
  refine ⟨atMostOne_of_inv _ hinv, fun hc => ⟨?_, ?_⟩, fun hc hle => ?_⟩
  · exact le_of_lt (created_shape _ _ _ hc).2
  · exact created_noOutstanding _ _ _ hinv hc
  · exact no_second_create _ _ _ _ hc hle

theorem C2_at_most_one_refresh_witness :
    NoOutstanding
      (runRefreshTrace 30 [RefreshEvent.trigger 100, RefreshEvent.complete])
    ∧ (30:ℚ) ≤ 200 -
        (runRefreshTrace 30
          [RefreshEvent.trigger 100, RefreshEvent.complete]).last_order_refresh
    ∧ (maybe_refresh 30
        (maybe_refresh 30
          (runRefreshTrace 30 [RefreshEvent.trigger 100, RefreshEvent.complete])
          200).1 210).2 = false := by
  have h := C2_at_most_one_refresh 30
    [RefreshEvent.trigger 100, RefreshEvent.complete] 200 210
  have hc : (maybe_refresh 30
      (runRefreshTrace 30 [RefreshEvent.trigger 100, RefreshEvent.complete])
      200).2 = true := by
    norm_num [runRefreshTrace, refreshStep, maybe_refresh, completeTask,
      initRefreshState, List.getD]
  exact ⟨(h.2.1 hc).2, (h.2.1 hc).1, h.2.2 hc (by norm_num)⟩

/-- Claim C5: for a TradingBot whose signer is configured, `place_order`
never raises — every outcome of construction, signing and submission maps to
a total `OrderResult`: an exception yields success = false with the
exception message, and a completed submission mirrors the response's
success field and orderId; `get_open_orders` likewise returns the empty
sequence when the underlying fetch fails. -/
theorem C5_place_order_never_raises (α : Type) (e : String)
    (r : ClobResponse) :
    place_order (Except.error e)
      = { success := false, order_id := none, status := none, message := e }
    ∧ (place_order (Except.ok r)).success = r.success.getD false
    ∧ (place_order (Except.ok r)).order_id = r.orderId
    ∧ get_open_orders (Except.error e : Except String (List α)) = [] :=
  ⟨rfl, rfl, rfl, rfl⟩

/-- Claim C10: when a background order refresh runs and the underlying
open-orders fetch fails, no exception escapes the refresh task, the cached
open-orders list is replaced with the empty list, and the task handle is
reset to absent on every completion path (including cancellation). -/
theorem C10_refresh_replaces_cache (α : Type) (ctx : RefreshCtx α)
    (machineFail : Option String) (fetch : Except String (List α)) :
    (do_order_refresh ctx false machineFail fetch).2 = none
    ∧ (do_order_refresh ctx false machineFail fetch).1.handle = none
    ∧ (∀ e, fetch = Except.error e →
        (do_order_refresh ctx false machineFail fetch).1.cached = [])
    ∧ (∀ m, machineFail = some m →
        (do_order_refresh ctx false machineFail fetch).1.cached = [])
    ∧ (do_order_refresh ctx true machineFail fetch).1.handle = none := by
  refine ⟨rfl, rfl, ?_, ?_, rfl⟩
  · intro e he
    subst he
    cases machineFail with
    | none => rfl
    | some m => rfl
  · intro m hm
    subst hm
    rfl

theorem C10_refresh_replaces_cache_witness :
    (do_order_refresh ({ cached := [7], handle := some false } : RefreshCtx ℕ)
        false none (Except.error "boom")).1.cached = []
    ∧ (do_order_refresh ({ cached := [7], handle := some false } : RefreshCtx ℕ)
        false none (Except.error "boom")).2 = none := by
  have h := C10_refresh_replaces_cache ℕ
    { cached := [7], handle := some false } none (Except.error "boom")
  exact ⟨h.2.2.1 "boom" rfl, h.1⟩

/-- Claim C8: `stop()` sets running to false; with a refresh task in flight
it cancels it, awaits its settlement absorbing the cancellation signal (so
nothing propagates to the caller), clears the handle and stops the market
controller; a second `stop()` performs no further cancellation and raises
nothing. -/
theorem C8_stop_idempotent (st : StratState)
    (settle settle2 : Except CancellationSignal Unit) :
    (stop st settle).1.running = false
    ∧ (stop st settle).1.task = none
    ∧ (stop st settle).2.2 = none
    ∧ (st.task ≠ none → (stop st settle).2.1
        = [StopEvent.cancelTask, StopEvent.awaitTask, StopEvent.marketStop])
    ∧ (st.task = none → (stop st settle).2.1 = [StopEvent.marketStop])
    ∧ (stop (stop st settle).1 settle2).2.1 = [StopEvent.marketStop]
    ∧ (stop (stop st settle).1 settle2).2.2 = none := by
  cases hst : st.task with
  | none => cases settle <;> simp [stop, hst]
  | some b => cases settle <;> simp [stop, hst]

theorem C8_stop_idempotent_witness :
    (stop { running := true, task := some false }
        (Except.error CancellationSignal.cancelled)).2.1
      = [StopEvent.cancelTask, StopEvent.awaitTask, StopEvent.marketStop]
    ∧ (stop { running := true, task := some false }
        (Except.error CancellationSignal.cancelled)).2.2 = none := by
  have h := C8_stop_idempotent { running := true, task := some false }
    (Except.error CancellationSignal.cancelled) (Except.ok ())
  exact ⟨h.2.2.2.1 (by simp), h.2.2.1⟩

/-- Claim C1: every execution of `run()` — start failure, normal loop exit,
KeyboardInterrupt, or any other exception in the body — ends with exactly
one `stop()` call and exactly one session summary (trades closed, total
PnL, win rate), in that order, after the loop's own events. -/
theorem C1_run_stop_and_summary_once (stats : SessionStats)
    (bodySteps : List ℕ) (term : PyTermination) :
    (run stats bodySteps term).1
      = bodySteps.map RunEvent.bodyStep
        ++ [RunEvent.stopCall, RunEvent.summaryReport (summaryOf stats)]
    ∧ (run stats bodySteps term).1.countP isStop = 1
    ∧ (run stats bodySteps term).1.countP isSummary = 1 := by
  have h1 : (run stats bodySteps term).1
      = bodySteps.map RunEvent.bodyStep
        ++ [RunEvent.stopCall, RunEvent.summaryReport (summaryOf stats)] := by
    cases term <;> simp [run, tryExceptKbFinally]
  refine ⟨h1, ?_, ?_⟩
  · rw [h1, List.countP_append]
    have hz : (bodySteps.map RunEvent.bodyStep).countP isStop = 0 := by
      refine List.countP_eq_zero.2 ?_
      intro a ha
      obtain ⟨n, _, rfl⟩ := List.mem_map.1 ha
      simp [isStop]
    rw [hz]
    rfl
  · rw [h1, List.countP_append]
    have hz : (bodySteps.map RunEvent.bodyStep).countP isSummary = 0 := by
      refine List.countP_eq_zero.2 ?_
      intro a ha
      obtain ⟨n, _, rfl⟩ := List.mem_map.1 ha
      simp [isSummary]
    rw [hz]
    rfl

/-- Claim C9: the price mapping built each tick contains a side exactly when
the market's mid price for that side is strictly positive, with that value;
the 0 "no data" sentinel never appears as a value. -/
theorem mem_get_current_prices_pos (mid : String → ℚ) (s : String) (p : ℚ)
    (hm : (s, p) ∈ get_current_prices mid) : 0 < p := by
  obtain ⟨a, _, hf⟩ := List.mem_filterMap.1 hm
  by_cases ha : 0 < mid a
  · rw [if_pos ha] at hf
    injection hf with hf
    rw [Prod.mk.injEq] at hf
    rw [← hf.2]
    exact ha
  · rw [if_neg ha] at hf
    cases hf

/-- Claim C9: the price mapping built each tick contains a side exactly when
the market's mid price for that side is strictly positive, with that value;
the 0 "no data" sentinel never appears as a value. -/
theorem C9_price_mapping_no_sentinel (mid : String → ℚ) :
    (lookupSide (get_current_prices mid) "up"
        = if 0 < mid "up" then some (mid "up") else none)
    ∧ (lookupSide (get_current_prices mid) "down"
        = if 0 < mid "down" then some (mid "down") else none)
    ∧ (∀ s p, (s, p) ∈ get_current_prices mid → 0 < p) := by
  refine ⟨?_, ?_, mem_get_current_prices_pos mid⟩ <;>
    by_cases hu : 0 < mid "up" <;> by_cases hd : 0 < mid "down" <;>
    simp [get_current_prices, lookupSide, hu, hd]

theorem C9_price_mapping_no_sentinel_witness :
    ((0:ℚ) < 1/2) ∧
    lookupSide
      (get_current_prices (fun s => if s = "up" then (1/2 : ℚ) else 0)) "up"
      = some (1/2) := by
  have h := C9_price_mapping_no_sentinel
    (fun s => if s = "up" then (1/2 : ℚ) else 0)
  refine ⟨?_, ?_⟩
  · norm_num
  · have h2 := h.2.2 "up" (1/2)
    have hm : ("up", (1/2 : ℚ)) ∈
        get_current_prices (fun s => if s = "up" then (1/2 : ℚ) else 0) := by
      norm_num [get_current_prices]
    have := h2 hm
    rw [h.1]
    norm_num

/-- Counterexample to claim C3 as stated: with the token-id mapping sending
"up" to the empty string, the mapping has an entry for the side and the
price is positive, yet `execute_buy` submits no order and returns false
(Python's `if not token_id` also rejects an empty token id), contradicting
the claim's "otherwise submits a BUY". -/
theorem C3_execute_buy_counterexample :
    ((fun s => if s = "up" then some "" else none) "up").isSome = true
    ∧ ((0:ℚ) < 1/2)
    ∧ (execute_buy (fun s => if s = "up" then some "" else none) 5
        (fun _ => { success := true, order_id := some "X", status := none,
                    message := "" }) "up" (1/2)).submitted = []
    ∧ (execute_buy (fun s => if s = "up" then some "" else none) 5
        (fun _ => { success := true, order_id := some "X", status := none,
                    message := "" }) "up" (1/2)).returned = false := by
  refine ⟨rfl, by norm_num, ?_, ?_⟩ <;>
    norm_num [execute_buy, pyFalsyStr]

/-- Claim C3 (amended): for every side and current_price > 0, `execute_buy`
returns false and submits no order when the token-id mapping has no entry
for the side or maps it to the empty string; otherwise it submits exactly
one BUY with size = configured size / current_price and limit price
min(current_price + 0.02, 0.99), opens exactly one position (entry price
current_price, that size, the returned order id) iff the placement result's
success flag is true, and returns that flag — with no retry within the
call. -/
theorem C3_execute_buy_amended (tokenIds : String → Option String)
    (cfgSize : ℚ) (place : OrderRequest → OrderResult) (side : String)
    (current_price : ℚ) (hp : 0 < current_price) :
    (pyFalsyStr (tokenIds side) = true →
      execute_buy tokenIds cfgSize place side current_price
        = { returned := false, submitted := [], opened := [] })
    ∧ (∀ tid, tokenIds side = some tid → tid ≠ "" →
        (execute_buy tokenIds cfgSize place side current_price).submitted
          = [{ token_id := tid,
               price := min (current_price + 2/100) (99/100 : ℚ),
               size := cfgSize / current_price, side := "BUY" }]
        ∧ (execute_buy tokenIds cfgSize place side current_price).returned
          = (place { token_id := tid,
                     price := min (current_price + 2/100) (99/100 : ℚ),
                     size := cfgSize / current_price, side := "BUY" }).success
        ∧ (execute_buy tokenIds cfgSize place side current_price).opened
          = (if (place { token_id := tid,
                         price := min (current_price + 2/100) (99/100 : ℚ),
                         size := cfgSize / current_price,
                         side := "BUY" }).success
             then [{ side := side, token_id := tid,
                     entry_price := current_price,
                     size := cfgSize / current_price,
                     order_id := (place { token_id := tid,
                                          price := min (current_price + 2/100)
                                            (99/100 : ℚ),
                                          size := cfgSize / current_price,
                                          side := "BUY" }).order_id }]
             else [])) := by
  constructor
  · intro hf
    unfold execute_buy
    rw [if_pos hf]
  · intro tid htid hne
    have hf : pyFalsyStr (tokenIds side) = false := by
      rw [htid]
      simp [pyFalsyStr, hne]
    unfold execute_buy
    rw [if_neg (by rw [hf]; exact Bool.false_ne_true), htid]
    simp only
    by_cases hs : (place { token_id := tid,
                           price := min (current_price + 2/100) (99/100 : ℚ),
                           size := cfgSize / current_price,
                           side := "BUY" }).success = true
    · rw [if_pos hs, if_pos hs]
      exact ⟨rfl, by rw [hs], rfl⟩
    · rw [if_neg hs, if_neg hs]
      refine ⟨rfl, ?_, rfl⟩
      rw [Bool.eq_false_iff.2 hs]

theorem C3_execute_buy_amended_witness :
    (execute_buy (fun s => if s = "up" then some "T1" else none) 5
        (fun _ => { success := true, order_id := some "X", status := none,
                    message := "" }) "up" (1/2)).submitted
      = [{ token_id := "T1", price := min ((1:ℚ)/2 + 2/100) (99/100 : ℚ),
           size := 5 / (1/2), side := "BUY" }]
    ∧ (execute_buy (fun s => if s = "up" then some "T1" else none) 5
        (fun _ => { success := true, order_id := some "X", status := none,
                    message := "" }) "up" (1/2)).returned = true := by
  have h := (C3_execute_buy_amended
    (fun s => if s = "up" then some "T1" else none) 5
    (fun _ => { success := true, order_id := some "X", status := none,
                message := "" }) "up" (1/2) (by norm_num)).2
    "T1" (by simp) (by decide)
  exact ⟨h.1, h.2.1⟩

/-- Claim C4: `execute_sell` submits one SELL for the position's token id
and size at limit price max(current_price − 0.02, 0.01); on a successful
placement the position is closed with the PnL computed at current_price and
the call returns true; on a failed placement the position set and session
stats are unchanged and the call returns false. -/
theorem C4_execute_sell_close_or_keep (place : OrderRequest → OrderResult)
    (st : PMState) (pos : Position) (current_price : ℚ) :
    (execute_sell place st pos current_price).submitted
      = [{ token_id := pos.token_id,
           price := max (current_price - 2/100) (1/100 : ℚ),
           size := pos.size, side := "SELL" }]
    ∧ ((place { token_id := pos.token_id,
                price := max (current_price - 2/100) (1/100 : ℚ),
                size := pos.size, side := "SELL" }).success = true →
        (execute_sell place st pos current_price).returned = true
        ∧ (execute_sell place st pos current_price).state
          = close_position st pos.id
              ((current_price - pos.entry_price) * pos.size)
        ∧ (∀ q ∈ (execute_sell place st pos current_price).state.positions,
            q.id = pos.id → q.status = PosStatus.closed
              ∧ q.realized_pnl
                = some ((current_price - pos.entry_price) * pos.size)))
    ∧ ((place { token_id := pos.token_id,
                price := max (current_price - 2/100) (1/100 : ℚ),
                size := pos.size, side := "SELL" }).success = false →
        (execute_sell place st pos current_price).returned = false
        ∧ (execute_sell place st pos current_price).state = st) := by
  unfold execute_sell
  simp only [Position.get_pnl]
  by_cases hs : (place { token_id := pos.token_id,
                         price := max (current_price - 2/100) (1/100 : ℚ),
                         size := pos.size, side := "SELL" }).success = true
  · rw [if_pos hs]
    refine ⟨rfl, ?_, ?_⟩
    · intro _
      refine ⟨rfl, rfl, ?_⟩
      intro q hq hid
      simp only [close_position] at hq
      obtain ⟨p0, _, rfl⟩ := List.mem_map.1 hq
      by_cases hp0 : p0.id = pos.id
      · rw [if_pos hp0]
        exact ⟨rfl, rfl⟩
      · rw [if_neg hp0]
        rw [if_neg hp0] at hid
        exact absurd hid hp0
    · intro hns
      rw [hs] at hns
      exact Bool.noConfusion hns
  · rw [if_neg hs]
    refine ⟨rfl, ?_, fun _ => ⟨rfl, rfl⟩⟩
    intro hs2
    exact absurd hs2 hs

theorem C4_execute_sell_close_or_keep_witness :
    (execute_sell
        (fun _ => { success := true, order_id := some "Y", status := none,
                    message := "" })
        { positions := [{ id := 1, side := "up", token_id := "T",
                          entry_price := 1/2, size := 10,
                          order_id := some "O", status := PosStatus.opened,
                          realized_pnl := none }],
          stats := { trades_closed := 0, total_pnl := 0, wins := 0,
                     losses := 0 } }
        { id := 1, side := "up", token_id := "T", entry_price := 1/2,
          size := 10, order_id := some "O", status := PosStatus.opened,
          realized_pnl := none }
        (3/5)).returned = true
    ∧ (execute_sell
        (fun _ => { success := true, order_id := some "Y", status := none,
                    message := "" })
        { positions := [{ id := 1, side := "up", token_id := "T",
                          entry_price := 1/2, size := 10,
                          order_id := some "O", status := PosStatus.opened,
                          realized_pnl := none }],
          stats := { trades_closed := 0, total_pnl := 0, wins := 0,
                     losses := 0 } }
        { id := 1, side := "up", token_id := "T", entry_price := 1/2,
          size := 10, order_id := some "O", status := PosStatus.opened,
          realized_pnl := none }
        (3/5)).state
      = close_position
          { positions := [{ id := 1, side := "up", token_id := "T",
                            entry_price := 1/2, size := 10,
                            order_id := some "O", status := PosStatus.opened,
                            realized_pnl := none }],
            stats := { trades_closed := 0, total_pnl := 0, wins := 0,
                       losses := 0 } }
          1 (((3:ℚ)/5 - 1/2) * 10) := by
  have h := (C4_execute_sell_close_or_keep
    (fun _ => { success := true, order_id := some "Y", status := none,
                message := "" })
    { positions := [{ id := 1, side := "up", token_id := "T",
                      entry_price := 1/2, size := 10,
                      order_id := some "O", status := PosStatus.opened,
                      realized_pnl := none }],
      stats := { trades_closed := 0, total_pnl := 0, wins := 0,
                 losses := 0 } }
    { id := 1, side := "up", token_id := "T", entry_price := 1/2,
      size := 10, order_id := some "O", status := PosStatus.opened,
      realized_pnl := none }
    (3/5)).2.1 rfl
  exact ⟨h.1, h.2.1⟩

theorem check_all_exits_lookup (tp sl : ℚ) (positions : List Position)
    (prices : List (String × ℚ)) :
    ∀ e ∈ check_all_exits tp sl positions prices,
      ∃ p, lookupSide prices e.1.side = some p
        ∧ (lookupSide prices e.1.side).getD 0 = p := by
  intro e he
  obtain ⟨pos, _, hf⟩ := List.mem_filterMap.1 he
  by_cases hst : pos.status = PosStatus.opened
  · rw [if_pos hst] at hf
    cases hlk : lookupSide prices pos.side with
    | none =>
      rw [hlk] at hf
      cases hf
    | some p =>
      rw [hlk] at hf
      dsimp only at hf
      have he1 : e.1 = pos := by
        by_cases h1 : tp ≤ ((p - pos.entry_price) * pos.size)
            / (pos.entry_price * pos.size)
        · rw [if_pos h1] at hf
          injection hf with hf
          rw [← hf]
        · rw [if_neg h1] at hf
          by_cases h2 : (p - pos.entry_price) * pos.size
              ≤ -(sl * pos.entry_price * pos.size)
          · rw [if_pos h2] at hf
            injection hf with hf
            rw [← hf]
          · rw [if_neg h2] at hf
            cases hf
      rw [he1, hlk]
      exact ⟨p, rfl, rfl⟩
  · rw [if_neg hst] at hf
    cases hf

/-- Claim C6: each loop iteration performs, in order: read current mid
prices for both sides, call the per-tick hook with them, evaluate exits and
call `execute_sell` once per triggered exit with that side's current price
(which is present in the mapping, so the `prices.get(side, 0)` default is
never used for a triggered exit), run the debounced refresh trigger, render
status, then suspend for `update_interval`. -/
theorem C6_tick_sequence (tp sl upd : ℚ) (mid : String → ℚ)
    (positions : List Position) :
    loop_tick tp sl upd mid positions
      = TickEvent.readPrices (get_current_prices mid)
        :: TickEvent.onTickHook (get_current_prices mid)
        :: ((check_all_exits tp sl positions (get_current_prices mid)).map
            (fun e => TickEvent.sellAttempt e.1
              ((lookupSide (get_current_prices mid) e.1.side).getD 0)))
        ++ [TickEvent.refreshCheck,
            TickEvent.renderStatus (get_current_prices mid),
            TickEvent.sleepFor upd]
    ∧ ∀ e ∈ check_all_exits tp sl positions (get_current_prices mid),
        ∃ p, lookupSide (get_current_prices mid) e.1.side = some p
          ∧ (lookupSide (get_current_prices mid) e.1.side).getD 0 = p :=
  ⟨rfl, check_all_exits_lookup tp sl positions (get_current_prices mid)⟩

theorem C6_tick_sequence_witness :
    (({ id := 1, side := "up", token_id := "T", entry_price := 1/2,
        size := 10, order_id := some "O", status := PosStatus.opened,
        realized_pnl := none } : Position), ExitKind.take_profit, (1:ℚ))
      ∈ check_all_exits (1/10) (5/100)
          [{ id := 1, side := "up", token_id := "T", entry_price := 1/2,
             size := 10, order_id := some "O", status := PosStatus.opened,
             realized_pnl := none }]
          (get_current_prices (fun s => if s = "up" then (3:ℚ)/5 else 0))
    ∧ ∃ p, lookupSide
          (get_current_prices (fun s => if s = "up" then (3:ℚ)/5 else 0))
          "up" = some p
        ∧ (lookupSide
            (get_current_prices (fun s => if s = "up" then (3:ℚ)/5 else 0))
            "up").getD 0 = p := by
  have hm : (({ id := 1, side := "up", token_id := "T", entry_price := 1/2,
                size := 10, order_id := some "O",
                status := PosStatus.opened,
                realized_pnl := none } : Position),
             ExitKind.take_profit, (1:ℚ))
      ∈ check_all_exits (1/10) (5/100)
          [{ id := 1, side := "up", token_id := "T", entry_price := 1/2,
             size := 10, order_id := some "O", status := PosStatus.opened,
             realized_pnl := none }]
          (get_current_prices (fun s => if s = "up" then (3:ℚ)/5 else 0)) := by
    norm_num [check_all_exits, lookupSide, get_current_prices]
  refine ⟨hm, ?_⟩
  exact (C6_tick_sequence (1/10) (5/100) (1/10)
    (fun s => if s = "up" then (3:ℚ)/5 else 0)
    [{ id := 1, side := "up", token_id := "T", entry_price := 1/2,
       size := 10, order_id := some "O", status := PosStatus.opened,
       realized_pnl := none }]).2 _ hm

/-- Claim C7: current-market discovery returns either absent or a market
that is accepting orders, found by probing the slug of the present
15-minute window's start timestamp, then +900 s, then −900 s, in exactly
that order, returning the first accepting-orders match. -/
theorem C7_discovery_first_accepting (lookup : String → Option GammaMarket)
    (pfx : String) (now : ℕ) :
    get_current_15m_market lookup pfx now
      = firstAcceptingMarket lookup (probeSlugs pfx now)
    ∧ (∀ m, get_current_15m_market lookup pfx now = some m →
        m.acceptingOrders = true) := by
  constructor <;>
  · simp only [get_current_15m_market, firstAcceptingMarket, probeSlugs]
    rcases h1 : lookup (slugFor pfx ((windowStart now : ℤ))) with _ | ⟨b1⟩ <;>
    rcases h2 : lookup (slugFor pfx ((windowStart now : ℤ) + 900))
      with _ | ⟨b2⟩ <;>
    rcases h3 : lookup (slugFor pfx ((windowStart now : ℤ) - 900))
      with _ | ⟨b3⟩ <;>
    simp [acceptingProbe, h1, h2, h3] <;> (split_ifs <;> simp_all)

theorem C7_discovery_first_accepting_witness :
    get_current_15m_market
        (fun s => if s = "p-900" then some { acceptingOrders := true }
                  else none) "p" 1000
      = some { acceptingOrders := true }
    ∧ ({ acceptingOrders := true } : GammaMarket).acceptingOrders = true := by
  have hres : get_current_15m_market
      (fun s => if s = "p-900" then some { acceptingOrders := true }
                else none) "p" 1000
      = some { acceptingOrders := true } := by decide
  refine ⟨hres, ?_⟩
  exact (C7_discovery_first_accepting
    (fun s => if s = "p-900" then some { acceptingOrders := true } else none)
    "p" 1000).2 _ hres
